import Mathlib

/-!
Shallow embedding of `src/app.py` (a Streamlit PDF-merger application) and
proofs of the specification's claims about it.

Python strings are modelled as lists of characters (`PyStr`); Python's
truthiness test `if s:` on a string becomes a non-emptiness test.  PDF
sources are opaque named blobs whose parse either yields a list of pages
(opaque, of a type parameter `α`) or raises: `pypdf`'s `PdfReadError` or any
other exception, each carrying a cause string.  The `PdfWriter` is modelled
by the list of pages appended so far, the optional user password set by
`encrypt`, and a `closed` flag set by `close` (run in the `finally` block).
-/

/-- A Python `str`, modelled as its list of characters. -/
abbrev PyStr := List Char

/-- An exception raised while appending a source to the writer:
`pypdf.errors.PdfReadError`, or any other exception (`Exception`). -/
inductive PdfError : Type where
  | readError (cause : PyStr)
  | otherError (cause : PyStr)
deriving DecidableEq

/-- An uploaded file (`UploadedFile`): a name and the outcome of parsing it
as a PDF — a list of pages in document order, or an exception. -/
structure SourceFile (α : Type) : Type where
  name : PyStr
  parse : Except PdfError (List α)

/-- The in-memory `PdfWriter` state: pages appended so far, the user
password installed by `merger.encrypt`, and whether `merger.close` ran. -/
structure PdfWriter (α : Type) : Type where
  pages : List α
  encryptedWith : Option PyStr
  closed : Bool

/-- The serialized output (`merged_pdf_stream` after `merger.write`): the
page sequence of the document and the user password it was encrypted
with, if any. -/
structure MergedDocument (α : Type) : Type where
  pages : List α
  encryptedWith : Option PyStr

/-- The observable outcome of one `merge_pdfs` call: the returned stream on
success, or the `st.error` report that was emitted before returning
`None` — the `PdfReadError` branch or the generic `Exception` branch. -/
inductive MergeOutcome (α : Type) : Type where
  | success (doc : MergedDocument α)
  | readError (cause : PyStr)
  | unexpectedError (cause : PyStr)

/-- The value `merge_pdfs` returns to its caller: the stream (`BytesIO`) on
success, `None` on either error branch. -/
def MergeOutcome.toReturn {α : Type} : MergeOutcome α → Option (MergedDocument α)
  | MergeOutcome.success doc => some doc
  | MergeOutcome.readError _ => none
  | MergeOutcome.unexpectedError _ => none

/-- `validate_password` from `src/app.py` (lines 32-48): false for a falsy
(empty) string, otherwise requires at least one upper-case character and at
least one digit. -/
def validate_password (password : PyStr) : Bool :=
  if password.isEmpty then false
  else
    let has_upper := password.any Char.isUpper
    let has_digit := password.any Char.isDigit
    has_upper && has_digit

/-- The `for pdf_file in ordered_files: merger.append(pdf_file)` loop of
`merge_pdfs`: threads the writer's page list; a parse failure aborts the
loop, carrying the exception and the pages accumulated so far (the writer
state at the moment the exception propagates). -/
def appendLoop {α : Type} : List (SourceFile α) → List α → Except (PdfError × List α) (List α)
  | [], pages => Except.ok pages
  | f :: fs, pages =>
    match f.parse with
    | Except.error e => Except.error (e, pages)
    | Except.ok ps => appendLoop fs (pages ++ ps)

/-- `merge_pdfs` from `src/app.py` (lines 50-83).  Returns the observable
outcome together with the final `PdfWriter` state; the `finally: merger.close()`
makes the writer closed on every exit path.  On success the writer's pages
are serialized to the output document, encrypted with `password` when it is
non-empty (`if password: merger.encrypt(password)`). -/
def merge_pdfs {α : Type} (ordered_files : List (SourceFile α)) (password : PyStr) :
    MergeOutcome α × PdfWriter α :=
  match appendLoop ordered_files [] with
  | Except.ok pages =>
    let enc : Option PyStr := if password.isEmpty then none else some password
    (MergeOutcome.success ⟨pages, enc⟩, ⟨pages, enc, true⟩)
  | Except.error (PdfError.readError c, pages) =>
    (MergeOutcome.readError c, ⟨pages, none, true⟩)
  | Except.error (PdfError.otherError c, pages) =>
    (MergeOutcome.unexpectedError c, ⟨pages, none, true⟩)

theorem appendLoop_all_ok {α : Type} (files : List (SourceFile α)) (pagess : List (List α))
    (h : files.map SourceFile.parse = pagess.map Except.ok) (acc : List α) :
    appendLoop files acc = Except.ok (acc ++ pagess.flatten) := by
  induction files generalizing pagess acc with
  | nil =>
    cases pagess with
    | nil => simp [appendLoop]
    | cons p ps => simp at h
  | cons f fs ih =>
    cases pagess with
    | nil => simp at h
    | cons p ps =>
      simp only [List.map_cons, List.cons.injEq] at h
      obtain ⟨h1, h2⟩ := h
      simp [appendLoop, h1, ih ps h2, List.append_assoc]

theorem appendLoop_split {α : Type} (pre rest : List (SourceFile α)) (pagess : List (List α))
    (h : pre.map SourceFile.parse = pagess.map Except.ok) (acc : List α) :
    appendLoop (pre ++ rest) acc = appendLoop rest (acc ++ pagess.flatten) := by
  induction pre generalizing pagess acc with
  | nil =>
    cases pagess with
    | nil => simp
    | cons p ps => simp at h
  | cons f fs ih =>
    cases pagess with
    | nil => simp at h
    | cons p ps =>
      simp only [List.map_cons, List.cons.injEq] at h
      obtain ⟨h1, h2⟩ := h
      simp [appendLoop, h1, ih ps h2, List.append_assoc]

/-- Python `s.lower()` on our string model. -/
def str_lower (s : PyStr) : PyStr := s.map Char.toLower

/-- Python `s.endswith(t)`: `t` is a suffix of `s`. -/
def str_endswith (s t : PyStr) : Bool := t.isSuffixOf s

/-- The extension literal `".pdf"` used at `src/app.py` lines 134-135. -/
def pdf_ext : PyStr := ".pdf".toList

/-- The output-name fixup of `main` (`src/app.py` lines 134-135):
`if not output_name.lower().endswith(".pdf"): output_name += ".pdf"`. -/
def ensure_pdf_suffix (output_name : PyStr) : PyStr :=
  if str_endswith (str_lower output_name) pdf_ext then output_name
  else output_name ++ pdf_ext

/-- The spec's wording of the suffix condition: the name ends, case-
insensitively, in `".pdf"` — some suffix of it lower-cases to `".pdf"`. -/
def HasPdfSuffixCI (s : PyStr) : Prop :=
  ∃ t u, s = t ++ u ∧ str_lower u = pdf_ext

/-- What one click of the "Skapa sammanslagen PDF" button produces
(`src/app.py` lines 125-153): the empty-selection warning, the weak-password
error, or an invocation of `merge_pdfs` labelled with the fixed-up output
name. -/
inductive MainOutcome (α : Type) : Type where
  | emptySelection
  | weakPassword
  | merged (output_name : PyStr) (result : MergeOutcome α)

/-- The file offered for download after a click: only a `merged` outcome
whose merge returned a stream (`if merged_file:`) yields one. -/
def MainOutcome.download {α : Type} : MainOutcome α → Option (MergedDocument α)
  | MainOutcome.merged _ r => r.toReturn
  | MainOutcome.emptySelection => none
  | MainOutcome.weakPassword => none

/-- The button-click handler of `main` (`src/app.py` lines 125-153):
checks `if not sorted_names`, then `if use_password and not
validate_password(password_input)`, then fixes up the output name, resolves
the ordered names through `file_dict` and calls `merge_pdfs` with the
password when protection was requested and `""` otherwise. -/
def main_merge_click {α : Type} (sorted_names : List PyStr) (use_password : Bool)
    (password_input : PyStr) (output_name : PyStr) (file_dict : PyStr → SourceFile α) :
    MainOutcome α :=
  if sorted_names.isEmpty then MainOutcome.emptySelection
  else if use_password && !validate_password password_input then MainOutcome.weakPassword
  else
    let out_name := ensure_pdf_suffix output_name
    let ordered_files := sorted_names.map file_dict
    MainOutcome.merged out_name
      (merge_pdfs ordered_files (if use_password then password_input else [])).1

/-- Modelled from the spec: the repository realizes ordering persistence
inside the external `streamlit_sortables` widget (`sort_items`,
`src/app.py` line 109), whose code is not part of this repository.  The
spec's `OrderingStore.reconcile(currentNames)`: names still present are
kept in their stored order, names that disappeared are dropped, and new
names are appended at the end in upload order. -/
def reconcile (current_names : List PyStr) (ordering : List PyStr) : List PyStr :=
  ordering.filter (fun n => decide (n ∈ current_names)) ++
    current_names.filter (fun n => decide (n ∉ ordering))

/-- Swap the elements at positions `i` and `i + 1`; identity when `i + 1`
is out of range. -/
def swap_adjacent {β : Type} : List β → Nat → List β
  | a :: b :: rest, 0 => b :: a :: rest
  | a :: rest, Nat.succ n => a :: swap_adjacent rest n
  | l, _ => l

/-- Modelled from the spec: `OrderingStore.moveUp(index)` swaps the element
at `index` with its predecessor; no-op at index 0. -/
def moveUp {β : Type} (index : Nat) (l : List β) : List β :=
  match index with
  | 0 => l
  | Nat.succ n => swap_adjacent l n

/-- Modelled from the spec: `OrderingStore.moveDown(index)` swaps the
element at `index` with its successor; no-op at the last index. -/
def moveDown {β : Type} (index : Nat) (l : List β) : List β :=
  swap_adjacent l index

/-- Modelled from the spec: the free-form "set order" operation (direct
drag-reordering) accepts an arbitrary permutation of the currently known
names and rejects anything else. -/
def set_order (new_order : List PyStr) (ordering : List PyStr) : List PyStr :=
  if new_order.Perm ordering then new_order else ordering

/-- One user reordering command on the ordering (spec §9: `MoveUp(index)`,
`MoveDown(index)`, `SetOrder(permutation)`). -/
inductive Move : Type where
  | up (index : Nat)
  | down (index : Nat)
  | setOrder (new_order : List PyStr)

/-- Apply one reordering command. -/
def applyMove : Move → List PyStr → List PyStr
  | Move.up i, o => moveUp i o
  | Move.down i, o => moveDown i o
  | Move.setOrder p, o => set_order p o

/-- Apply a sequence of reordering commands, oldest first. -/
def applyMoves (ms : List Move) (o : List PyStr) : List PyStr :=
  ms.foldl (fun o m => applyMove m o) o

/-- C3: `validate_password` is a pure predicate that is false on the empty
string and true exactly when the string contains at least one upper-case
character and at least one digit, with no length requirement; the four
example inputs behave as the spec states. -/
theorem validate_password_correct :
    validate_password ("".toList) = false ∧
    (∀ p : PyStr, validate_password p = true ↔
      ((∃ c ∈ p, c.isUpper = true) ∧ (∃ c ∈ p, c.isDigit = true))) ∧
    validate_password ("password1".toList) = false ∧
    validate_password ("PASSWORD".toList) = false ∧
    validate_password ("Password1".toList) = true := by
  refine ⟨rfl, ?_, rfl, rfl, rfl⟩
  intro p
  cases p with
  | nil => simp [validate_password]
  | cons c cs => simp [validate_password, List.any_eq_true]

/-- Witness for C3: the biconditional instantiated at "Password1". -/
theorem validate_password_correct_witness :
    validate_password ("Password1".toList) = true :=
  (validate_password_correct.2.1 ("Password1".toList)).mpr
    ⟨⟨'P', by decide, by decide⟩, ⟨'1', by decide, by decide⟩⟩

/-- C1: merging a non-empty list of parseable sources yields a document
whose page sequence is the concatenation of the sources' page sequences in
input order, returned as a stream, and whose page count is the sum of the
input page counts. -/
theorem merge_pdfs_concatenates {α : Type} (files : List (SourceFile α))
    (pagess : List (List α)) (password : PyStr)
    (hne : files ≠ [])
    (h : files.map SourceFile.parse = pagess.map Except.ok) :
    (merge_pdfs files password).1 =
      MergeOutcome.success ⟨pagess.flatten,
        if password.isEmpty then none else some password⟩ ∧
    ((merge_pdfs files password).1).toReturn =
      some ⟨pagess.flatten, if password.isEmpty then none else some password⟩ ∧
    pagess.flatten.length = (pagess.map List.length).sum := by
  unfold merge_pdfs
  rw [appendLoop_all_ok files pagess h]
  refine ⟨by simp, by simp [MergeOutcome.toReturn], by simp⟩

/-- Witness for C1: a two-page source followed by a one-page source merges
into the three-page concatenation. -/
theorem merge_pdfs_concatenates_witness :
    (merge_pdfs [SourceFile.mk ("a.pdf".toList) (Except.ok [0, 1]),
                 SourceFile.mk ("b.pdf".toList) (Except.ok [2])] ("".toList)).1 =
      MergeOutcome.success ⟨[0, 1, 2], none⟩ :=
  (merge_pdfs_concatenates
    [SourceFile.mk ("a.pdf".toList) (Except.ok [0, 1]),
     SourceFile.mk ("b.pdf".toList) (Except.ok [2])]
    [[0, 1], [2]] ("".toList) (List.cons_ne_nil _ _) rfl).1

/-- C4: whenever `merge_pdfs` returns a document, that document is
encrypted with the supplied password as user password exactly when the
password is non-empty, and unencrypted when it is empty. -/
theorem merge_pdfs_encryption {α : Type} (files : List (SourceFile α)) (password : PyStr)
    (doc : MergedDocument α)
    (h : (merge_pdfs files password).1 = MergeOutcome.success doc) :
    doc.encryptedWith = if password.isEmpty then none else some password := by
  unfold merge_pdfs at h
  cases happ : appendLoop files [] with
  | ok pages =>
    rw [happ] at h
    simp only [MergeOutcome.success.injEq] at h
    rw [← h]
  | error ep =>
    obtain ⟨e, pages⟩ := ep
    cases e <;> rw [happ] at h <;> simp at h

/-- Witness for C4 at one parseable source and the password "Aa1". -/
theorem merge_pdfs_encryption_witness :
    (MergedDocument.mk ([1] : List Nat) (some ("Aa1".toList))).encryptedWith =
      if ("Aa1".toList).isEmpty then none else some ("Aa1".toList) :=
  merge_pdfs_encryption [SourceFile.mk ("a.pdf".toList) (Except.ok [1])]
    ("Aa1".toList) (MergedDocument.mk [1] (some ("Aa1".toList))) rfl

/-- C2: when the first unparseable source raises, the failure is classified —
a `PdfReadError` yields the corrupt-or-already-protected report carrying its
cause, any other exception yields the generic merge-failure report carrying
its cause — and in both cases `merge_pdfs` returns no document. -/
theorem merge_pdfs_failure_classification {α : Type} (pre post : List (SourceFile α))
    (pagess : List (List α)) (f : SourceFile α) (e : PdfError) (password : PyStr)
    (hpre : pre.map SourceFile.parse = pagess.map Except.ok)
    (hf : f.parse = Except.error e) :
    (∀ c, e = PdfError.readError c →
      (merge_pdfs (pre ++ f :: post) password).1 = MergeOutcome.readError c) ∧
    (∀ c, e = PdfError.otherError c →
      (merge_pdfs (pre ++ f :: post) password).1 = MergeOutcome.unexpectedError c) ∧
    ((merge_pdfs (pre ++ f :: post) password).1).toReturn = none := by
  have hrun : appendLoop (pre ++ f :: post) ([] : List α) =
      Except.error (e, pagess.flatten) := by
    rw [appendLoop_split pre (f :: post) pagess hpre]
    simp [appendLoop, hf]
  unfold merge_pdfs
  rw [hrun]
  cases e <;> simp [MergeOutcome.toReturn]

/-- Witness for C2: a good one-page source followed by a corrupt one yields
the read-error report and no returned document. -/
theorem merge_pdfs_failure_classification_witness :
    (merge_pdfs [SourceFile.mk ("a.pdf".toList) (Except.ok ([5] : List Nat)),
                 SourceFile.mk ("bad.pdf".toList)
                   (Except.error (PdfError.readError ("trailer".toList)))]
      ("".toList)).1 = MergeOutcome.readError ("trailer".toList) ∧
    ((merge_pdfs [SourceFile.mk ("a.pdf".toList) (Except.ok ([5] : List Nat)),
                  SourceFile.mk ("bad.pdf".toList)
                    (Except.error (PdfError.readError ("trailer".toList)))]
      ("".toList)).1).toReturn = none :=
  have h := merge_pdfs_failure_classification
    [SourceFile.mk ("a.pdf".toList) (Except.ok ([5] : List Nat))] []
    [[5]] (SourceFile.mk ("bad.pdf".toList)
      (Except.error (PdfError.readError ("trailer".toList))))
    (PdfError.readError ("trailer".toList)) ("".toList) rfl rfl
  ⟨h.1 ("trailer".toList) rfl, h.2.2⟩

/-- C8: the in-memory `PdfWriter` is closed on every exit path of
`merge_pdfs` — success, parse failure, and any other exception. -/
theorem merge_pdfs_closes_writer {α : Type} (files : List (SourceFile α)) (password : PyStr) :
    ((merge_pdfs files password).2).closed = true := by
  unfold merge_pdfs
  cases happ : appendLoop files [] with
  | ok pages => simp
  | error ep =>
    obtain ⟨e, pages⟩ := ep
    cases e <;> simp

/-- C10: `merge_pdfs` does not enforce non-emptiness itself — on the empty
source list with an empty password it returns a serialized zero-page
document rather than `None`. -/
theorem merge_pdfs_empty_input :
    (merge_pdfs ([] : List (SourceFile Nat)) ("".toList)).1 =
      MergeOutcome.success ⟨[], none⟩ ∧
    ((merge_pdfs ([] : List (SourceFile Nat)) ("".toList)).1).toReturn =
      some ⟨[], none⟩ :=
  ⟨rfl, rfl⟩

/-- C6: with an empty ordered name list, the click reports the empty
selection; the merge is never reached and no file is produced. -/
theorem main_merge_click_empty_selection {α : Type} (use_password : Bool)
    (password_input output_name : PyStr) (file_dict : PyStr → SourceFile α) :
    main_merge_click [] use_password password_input output_name file_dict =
      MainOutcome.emptySelection ∧
    (main_merge_click [] use_password password_input output_name file_dict).download
      = none := by
  constructor <;> simp [main_merge_click, MainOutcome.download]

/-- C7: with protection requested and a password failing
`validate_password`, the click reports the weak password at the call site;
the merge is never reached and no file is produced. -/
theorem main_merge_click_weak_password {α : Type} (sorted_names : List PyStr)
    (password_input output_name : PyStr) (file_dict : PyStr → SourceFile α)
    (hne : sorted_names.isEmpty = false)
    (hweak : validate_password password_input = false) :
    main_merge_click sorted_names true password_input output_name file_dict =
      MainOutcome.weakPassword ∧
    (main_merge_click sorted_names true password_input output_name file_dict).download
      = none := by
  constructor <;> simp [main_merge_click, MainOutcome.download, hne, hweak]

/-- Witness for C7: one selected file and the password "weak". -/
theorem main_merge_click_weak_password_witness :
    main_merge_click ["a.pdf".toList] true ("weak".toList) ("out".toList)
      (fun n => SourceFile.mk n (Except.ok ([] : List Nat))) =
      MainOutcome.weakPassword :=
  (main_merge_click_weak_password ["a.pdf".toList] ("weak".toList) ("out".toList)
    (fun n => SourceFile.mk n (Except.ok ([] : List Nat))) rfl rfl).1

theorem str_endswith_lower_iff (s : PyStr) :
    str_endswith (str_lower s) pdf_ext = true ↔ HasPdfSuffixCI s := by
  simp only [str_endswith, str_lower, HasPdfSuffixCI, List.isSuffixOf_iff_suffix]
  constructor
  · rintro ⟨t, ht⟩
    obtain ⟨l₁, l₂, hs, h1, h2⟩ := List.map_eq_append_iff.mp ht.symm
    exact ⟨l₁, l₂, hs, h2⟩
  · rintro ⟨t, u, rfl, hu⟩
    exact ⟨t.map Char.toLower, by rw [List.map_append, hu]⟩

/-- C9: the output-name fixup leaves a name already ending in ".pdf" in any
letter case unchanged, and appends ".pdf" exactly when the case-insensitive
suffix is absent. -/
theorem ensure_pdf_suffix_spec (s : PyStr) :
    (HasPdfSuffixCI s → ensure_pdf_suffix s = s) ∧
    (¬ HasPdfSuffixCI s → ensure_pdf_suffix s = s ++ pdf_ext) := by
  constructor
  · intro h
    unfold ensure_pdf_suffix
    rw [if_pos ((str_endswith_lower_iff s).mpr h)]
  · intro h
    unfold ensure_pdf_suffix
    rw [if_neg (fun hb => h ((str_endswith_lower_iff s).mp hb))]

/-- Witness for C9: "doc.PDF" is left unchanged, "doc" gets ".pdf"
appended. -/
theorem ensure_pdf_suffix_spec_witness :
    ensure_pdf_suffix ("doc.PDF".toList) = "doc.PDF".toList ∧
    ensure_pdf_suffix ("doc".toList) = "doc".toList ++ pdf_ext := by
  constructor
  · exact (ensure_pdf_suffix_spec ("doc.PDF".toList)).1
      ⟨"doc".toList, ".PDF".toList, by decide, by decide⟩
  · refine (ensure_pdf_suffix_spec ("doc".toList)).2 ?_
    intro h
    have hb := (str_endswith_lower_iff ("doc".toList)).mpr h
    have hfalse : str_endswith (str_lower ("doc".toList)) pdf_ext = false := by decide
    rw [hfalse] at hb
    exact Bool.noConfusion hb

theorem swap_adjacent_mem {β : Type} (l : List β) (i : Nat) (x : β) :
    x ∈ swap_adjacent l i ↔ x ∈ l := by
  induction l generalizing i with
  | nil => cases i <;> simp [swap_adjacent]
  | cons a t ih =>
    cases t with
    | nil => cases i <;> simp [swap_adjacent]
    | cons b r =>
      cases i with
      | zero =>
        simp only [swap_adjacent, List.mem_cons]
        tauto
      | succ n =>
        simp only [swap_adjacent, List.mem_cons, ih]

theorem mem_reconcile (names o : List PyStr) (x : PyStr) :
    x ∈ reconcile names o ↔ x ∈ names := by
  unfold reconcile
  simp only [List.mem_append, List.mem_filter, decide_eq_true_eq]
  constructor
  · rintro (⟨_, hx⟩ | ⟨hx, _⟩) <;> exact hx
  · intro hx
    by_cases ho : x ∈ o
    · exact Or.inl ⟨ho, hx⟩
    · exact Or.inr ⟨hx, ho⟩

theorem reconcile_eq_self (names o : List PyStr)
    (h : ∀ x, x ∈ o ↔ x ∈ names) : reconcile names o = o := by
  unfold reconcile
  have h1 : o.filter (fun n => decide (n ∈ names)) = o :=
    List.filter_eq_self.mpr (fun a ha => by simpa using (h a).mp ha)
  have h2 : names.filter (fun n => decide (n ∉ o)) = [] :=
    List.filter_eq_nil_iff.mpr (fun a ha => by simpa using (h a).mpr ha)
  rw [h1, h2, List.append_nil]

theorem applyMove_mem (m : Move) (o : List PyStr) (x : PyStr) :
    x ∈ applyMove m o ↔ x ∈ o := by
  cases m with
  | up i =>
    cases i with
    | zero => simp [applyMove, moveUp]
    | succ n => simp [applyMove, moveUp, swap_adjacent_mem]
  | down i => simp [applyMove, moveDown, swap_adjacent_mem]
  | setOrder p =>
    simp only [applyMove, set_order]
    by_cases hp : p.Perm o
    · rw [if_pos hp]
      exact hp.mem_iff
    · rw [if_neg hp]

theorem applyMoves_mem (ms : List Move) (o : List PyStr) (x : PyStr) :
    x ∈ applyMoves ms o ↔ x ∈ o := by
  induction ms generalizing o with
  | nil => simp [applyMoves]
  | cons m ms ih =>
    simp only [applyMoves, List.foldl_cons] at ih ⊢
    exact (ih (applyMove m o)).trans (applyMove_mem m o x)

/-- C5: user reordering persists across reconciliations with an unchanged
name set — after any sequence of moveUp/moveDown/drag commands applied to a
reconciled ordering, a second reconcile with the same names is the
identity, so the user's ordering is kept rather than recomputed. -/
theorem reconcile_preserves_user_order (names ordering : List PyStr) (ms : List Move) :
    reconcile names (applyMoves ms (reconcile names ordering)) =
      applyMoves ms (reconcile names ordering) := by
  apply reconcile_eq_self
  intro x
  exact (applyMoves_mem ms (reconcile names ordering) x).trans
    (mem_reconcile names ordering x)
